import Mathlib

/-!
Verification of GitHubRepoManager against its specification.

The repository's source under `python/` is a command-line stub
(`githubrepomanager.py`) and a placeholder unit test (`tests/test_main.py`).
Those two files are embedded directly below.  The specification additionally
describes a local repository state synchronizer (descriptor store, filesystem
inspector, diff engine, action executor, result aggregator) that has no
counterpart in the source; the definitions for that core are modelled from
the spec's words, as marked in their doc comments.
-/

namespace GHRM

/-! ## Embedding of `python/githubrepomanager.py` -/

/-- Result of `parse_args` on success: the single `--debug` store-true flag. -/
structure Args where
  debug : Bool
deriving DecidableEq

/-- Embeds `parse_args` (githubrepomanager.py lines 10-14): an argparse parser
with one optional flag `--debug` (`action="store_true"`).  A token equal to
`--debug` sets the flag (repetition is accepted by argparse); any other token
is unrecognized and argparse aborts with exit status 2, modelled as `none`. -/
def parse_args : List String → Bool → Option Args
  | [], acc => some ⟨acc⟩
  | a :: rest, _ => if a = "--debug" then parse_args rest true else none

/-- Embeds `main` (githubrepomanager.py lines 16-20) together with the
`sys.exit(main())` entry: given the argument vector (after the program name),
returns the list of lines printed to stdout and the process exit status.
On successful parse it prints the one static string and returns 0; on an
argparse error nothing is printed to stdout and the status is 2. -/
def main (argv : List String) : List String × Nat :=
  match parse_args argv false with
  | some _ => (["GitHubRepoManager Python implementation"], 0)
  | none => ([], 2)

/-! ## Embedding of `python/tests/test_main.py` -/

/-- Embeds `TestMain.test_placeholder` (tests/test_main.py lines 15-17):
the body is `self.assertTrue(True)`, so the test's verdict is the constant
`true`. -/
def test_placeholder : Bool := true

/-- The whole test suite of the repository: the single test above,
as (test name, verdict) pairs. -/
def testSuite : List (String × Bool) := [("test_placeholder", test_placeholder)]

/-! ## Synchronizer core, modelled from the spec (no source counterpart) -/

/-- Modelled from the spec: `RepositoryDescriptor` (§3), the declared desired
state of one repository clone; absent from the source. -/
structure RepositoryDescriptor where
  name : String
  remoteURL : String
  targetRef : String
  localPath : String
deriving DecidableEq

/-- Modelled from the spec: `LocalRepositoryState` (§3), the observed on-disk
state of one clone; absent from the source. -/
structure LocalRepositoryState where
  «exists» : Bool
  currentRef : Option String
  remoteURLMatches : Bool
  isClean : Bool
deriving DecidableEq

/-- Modelled from the spec: `SyncAction` (§3), the tagged variant
{Clone, UpdateRef, Skip, Conflict(reason)}; absent from the source. -/
inductive SyncAction
  | Clone
  | UpdateRef
  | Skip
  | Conflict (reason : String)
deriving DecidableEq

/-- Modelled from the spec: the transient/permanent error taxonomy of §4.4
and the glossary; absent from the source. -/
inductive ErrorKind
  | transient
  | permanent
deriving DecidableEq

/-- Modelled from the spec: the `status` field of `SyncOutcome` (§3),
`Success | Failed(errorKind) | Skipped`; absent from the source. -/
inductive SyncStatus
  | Success
  | Failed (errorKind : ErrorKind)
  | Skipped
deriving DecidableEq

/-- Modelled from the spec: `SyncOutcome` (§3); absent from the source. -/
structure SyncOutcome where
  descriptor : RepositoryDescriptor
  action : SyncAction
  status : SyncStatus
  attempts : Nat
deriving DecidableEq

/-- Modelled from the spec: the Diff Engine's `plan` (§4.3), written as the
spec's ordered policy cascade: `!exists → Clone`; else
`remoteURLMatches && currentRef == targetRef → Skip`; else
`!isClean → Conflict("dirty working tree")`; else
`!remoteURLMatches → Conflict("remote mismatch")`; otherwise `UpdateRef`.
Absent from the source. -/
def plan (d : RepositoryDescriptor) (s : LocalRepositoryState) : SyncAction :=
  if !s.«exists» then .Clone
  else if s.remoteURLMatches && s.currentRef == some d.targetRef then .Skip
  else if !s.isClean then .Conflict "dirty working tree"
  else if !s.remoteURLMatches then .Conflict "remote mismatch"
  else .UpdateRef

/-- Modelled from the spec: the Executor's retry bound (§4.4), "retried up to
a fixed bound (default 3)"; absent from the source. -/
def retryBound : Nat := 3

/-- Modelled from the spec: the Executor's retry loop (§4.4) for one
Clone/UpdateRef action.  The oracle gives, for each attempt index, the error
that attempt encounters (`none` = the attempt succeeds).  A successful
attempt yields `Success`; a permanent error yields `Failed permanent` with no
further attempt; a transient error is retried while retries remain, and
yields `Failed transient` once they are exhausted.  Returns the final status
and the total number of attempts made (the second argument is the index of
the next attempt, so calls start at 0).  Absent from the source. -/
def executeWithRetry (o : Nat → Option ErrorKind) : Nat → Nat → SyncStatus × Nat
  | retriesLeft, i =>
    match o i with
    | none => (.Success, i + 1)
    | some .permanent => (.Failed .permanent, i + 1)
    | some .transient =>
      match retriesLeft with
      | 0 => (.Failed .transient, i + 1)
      | r + 1 => executeWithRetry o r (i + 1)

/-- The local filesystem, keyed by local path.  Each path holds the state the
Filesystem Inspector would report for a descriptor with that `localPath`
(runs where inspection itself fails are modelled separately below). -/
abbrev Fs := String → LocalRepositoryState

/-- Pointwise update of the filesystem at one path. -/
def updateFs (fs : Fs) (p : String) (s : LocalRepositoryState) : Fs :=
  fun q => if q = p then s else fs q

/-- Modelled from the spec: the effect of a successfully executed action on
the state at the action's local path (§4.4).  A Clone produces a fresh clean
clone of the descriptor's remote at its target ref; an UpdateRef
(fetch+checkout) moves the current ref to the target ref; Skip and Conflict
are never executed and change nothing.  Absent from the source. -/
def applyAction (d : RepositoryDescriptor) (s : LocalRepositoryState) :
    SyncAction → LocalRepositoryState
  | .Clone => ⟨true, some d.targetRef, true, true⟩
  | .UpdateRef => { s with currentRef := some d.targetRef }
  | .Skip => s
  | .Conflict _ => s

/-- The SyncOutcome the Executor produces for one (descriptor, action) pair,
given that descriptor's attempt oracle.  Skip and Conflict pass through as
`Skipped` with 0 attempts (§4.4); Clone and UpdateRef run the retry loop. -/
def outcomeOf (o : Nat → Option ErrorKind) (d : RepositoryDescriptor) :
    SyncAction → SyncOutcome
  | .Clone => ⟨d, .Clone, (executeWithRetry o retryBound 0).1,
      (executeWithRetry o retryBound 0).2⟩
  | .UpdateRef => ⟨d, .UpdateRef, (executeWithRetry o retryBound 0).1,
      (executeWithRetry o retryBound 0).2⟩
  | .Skip => ⟨d, .Skip, .Skipped, 0⟩
  | .Conflict r => ⟨d, .Conflict r, .Skipped, 0⟩

/-- Modelled from the spec: Executor execution of one action (§4.4).
Returns the outcome and the filesystem afterwards: only a Clone or UpdateRef
that ends in `Success` mutates the filesystem, and only at its own
descriptor's local path.  Absent from the source. -/
def executeOne (o : Nat → Option ErrorKind) (fs : Fs) (d : RepositoryDescriptor)
    (a : SyncAction) : SyncOutcome × Fs :=
  match a with
  | .Clone =>
    let out := outcomeOf o d .Clone
    (out, if out.status = .Success
      then updateFs fs d.localPath (applyAction d (fs d.localPath) .Clone)
      else fs)
  | .UpdateRef =>
    let out := outcomeOf o d .UpdateRef
    (out, if out.status = .Success
      then updateFs fs d.localPath (applyAction d (fs d.localPath) .UpdateRef)
      else fs)
  | .Skip => (outcomeOf o d .Skip, fs)
  | .Conflict r => (outcomeOf o d (.Conflict r), fs)

/-- Modelled from the spec: `execute(actions, ...)` (§4.4) over the whole
action list.  Per §5 the per-repository actions are independent, any
interleaving is valid, and the outcome list preserves the input descriptor
order, so the run is modelled as the in-order fold; the oracle gives each
descriptor its own attempt-error stream.  Absent from the source. -/
def executeAll (oracle : RepositoryDescriptor → Nat → Option ErrorKind) :
    List (RepositoryDescriptor × SyncAction) → Fs → List SyncOutcome × Fs
  | [], fs => ([], fs)
  | (d, a) :: rest, fs =>
    let step := executeOne (oracle d) fs d a
    let tail := executeAll oracle rest step.2
    (step.1 :: tail.1, tail.2)

/-- The Diff Engine pass over a descriptor list: one planned action per
descriptor, computed from the state at its local path (§4.3, §8). -/
def planAll (descs : List RepositoryDescriptor) (fs : Fs) :
    List (RepositoryDescriptor × SyncAction) :=
  descs.map fun d => (d, plan d (fs d.localPath))

/-- Modelled from the spec: one run of the full pipeline (§2) — inspect,
plan, execute — returning the outcome list and the filesystem after the run.
Absent from the source. -/
def runPipeline (oracle : RepositoryDescriptor → Nat → Option ErrorKind)
    (descs : List RepositoryDescriptor) (fs : Fs) : List SyncOutcome × Fs :=
  executeAll oracle (planAll descs fs) fs

/-! ### Filesystem Inspector with I/O failures (for §4.2) -/

/-- Modelled from the spec: what the Inspector can find at a path — nothing,
a repository, or an I/O error unrelated to absence (e.g. permission denied).
Absent from the source. -/
inductive PathStatus
  | absent
  | repo (currentRef : Option String) (remoteURLMatches : Bool) (isClean : Bool)
  | ioError
deriving DecidableEq

/-- Modelled from the spec: `InspectionError` (§4.2, §7); absent from the
source. -/
inductive InspectionError
  | ioFailure
deriving DecidableEq

/-- Modelled from the spec: `inspect(descriptor) -> LocalRepositoryState`
(§4.2).  It only reads the path's status, never writes: a non-existent path
is the valid `exists = false` state, a repository is reported as found, and
an I/O error unrelated to absence is the only case raising
`InspectionError`.  Absent from the source. -/
def inspect (d : RepositoryDescriptor) (disk : String → PathStatus) :
    Except InspectionError LocalRepositoryState :=
  match disk d.localPath with
  | .absent => .ok ⟨false, none, false, true⟩
  | .repo r m c => .ok ⟨true, r, m, c⟩
  | .ioError => .error .ioFailure

/-! ## Helper lemmas -/

theorem parse_args_isSome (argv : List String) (acc : Bool) :
    (parse_args argv acc).isSome = argv.all (fun a => a == "--debug") := by
  induction argv generalizing acc with
  | nil => rfl
  | cons a rest ih =>
    by_cases ha : a = "--debug"
    · simp [parse_args, ha, ih]
    · simp [parse_args, ha]

theorem main_eq_cond (argv : List String) :
    main argv = if argv.all (fun a => a == "--debug")
      then (["GitHubRepoManager Python implementation"], 0) else ([], 2) := by
  have h := parse_args_isSome argv false
  unfold main
  cases hp : parse_args argv false with
  | some a =>
    rw [hp] at h
    simp only [Option.isSome_some] at h
    rw [← h]
    rfl
  | none =>
    rw [hp] at h
    simp only [Option.isSome_none] at h
    rw [← h]
    rfl

theorem all_debug_of_filter_eq (l1 l2 : List String)
    (h : l1.filter (fun a => !(a == "--debug")) = l2.filter (fun a => !(a == "--debug")))
    (h1 : ∀ a ∈ l1, a = "--debug") : ∀ a ∈ l2, a = "--debug" := by
  intro a ha
  by_contra hne
  have hmem : a ∈ l2.filter (fun a => !(a == "--debug")) := by
    rw [List.mem_filter]
    exact ⟨ha, by simp [hne]⟩
  rw [← h, List.mem_filter] at hmem
  exact hne (h1 a hmem.1)

/-- A sample descriptor used by witnesses. -/
def sampleDesc : RepositoryDescriptor := ⟨"a", "u1", "main", "/r/a"⟩

/-! ## Claims about the CLI stub and the test suite -/

/-- C1: for every invocation whose command-line arguments are recognized
(any subset of \x7b--debug\x7d), `main` prints exactly the static string
"GitHubRepoManager Python implementation" and returns exit status 0. -/
theorem main_recognized_args (argv : List String)
    (h : argv = [] ∨ argv = ["--debug"]) :
    main argv = (["GitHubRepoManager Python implementation"], 0) := by
  rcases h with h | h <;> subst h <;> rfl

theorem main_recognized_args_witness :
    ((["--debug"] : List String) = [] ∨ (["--debug"] : List String) = ["--debug"])
    ∧ main ["--debug"] = (["GitHubRepoManager Python implementation"], 0) :=
  ⟨Or.inr rfl, main_recognized_args ["--debug"] (Or.inr rfl)⟩

/-- C9: the repository's test suite is the single placeholder test whose
body asserts the constant `True`, so every test in the suite passes
unconditionally. -/
theorem test_suite_trivially_passes :
    testSuite = [("test_placeholder", true)]
    ∧ testSuite.all (fun t => t.2) = true := ⟨rfl, rfl⟩

/-- C10: noninterference of the `--debug` flag — two invocations that differ
only in occurrences of `--debug` (their argument vectors agree once all
`--debug` tokens are removed) print the same output and return the same exit
status; the parsed flag is never read after parsing. -/
theorem debug_flag_noninterference (argv1 argv2 : List String)
    (h : argv1.filter (fun a => !(a == "--debug"))
       = argv2.filter (fun a => !(a == "--debug"))) :
    main argv1 = main argv2 := by
  have e : argv1.all (fun a => a == "--debug")
      = argv2.all (fun a => a == "--debug") := by
    rw [Bool.eq_iff_iff]
    simp only [List.all_eq_true, beq_iff_eq]
    exact ⟨all_debug_of_filter_eq argv1 argv2 h,
      all_debug_of_filter_eq argv2 argv1 h.symm⟩
  rw [main_eq_cond, main_eq_cond, e]

theorem debug_flag_noninterference_witness :
    main ["--debug"] = main [] :=
  debug_flag_noninterference ["--debug"] [] (by decide)

/-! ## Claims about the Diff Engine -/

/-- C2: `plan` realizes the spec's ordered policy cascade (first matching
clause wins, in the order the spec lists them): Clone when the clone is
absent; Skip when present with matching remote and current ref already at
the target; Conflict "dirty working tree" on a present dirty tree not
already skipped; Conflict "remote mismatch" on a present clean tree with a
mismatched remote; UpdateRef in every remaining case. -/
theorem plan_policy (d : RepositoryDescriptor) (s : LocalRepositoryState) :
    (s.«exists» = false → plan d s = .Clone)
    ∧ (s.«exists» = true → s.remoteURLMatches = true →
        s.currentRef = some d.targetRef → plan d s = .Skip)
    ∧ (s.«exists» = true →
        ¬(s.remoteURLMatches = true ∧ s.currentRef = some d.targetRef) →
        s.isClean = false → plan d s = .Conflict "dirty working tree")
    ∧ (s.«exists» = true → s.isClean = true → s.remoteURLMatches = false →
        plan d s = .Conflict "remote mismatch")
    ∧ (s.«exists» = true → s.isClean = true → s.remoteURLMatches = true →
        s.currentRef ≠ some d.targetRef → plan d s = .UpdateRef) := by
  refine ⟨?_, ?_, ?_, ?_, ?_⟩
  · intro h1
    simp [plan, h1]
  · intro h1 h2 h3
    simp [plan, h1, h2, h3]
  · intro h1 hn h2
    have hb : (s.remoteURLMatches && s.currentRef == some d.targetRef) = false := by
      rcases Bool.eq_false_or_eq_true s.remoteURLMatches with hm | hm
      · have hne : s.currentRef ≠ some d.targetRef := fun hc => hn ⟨hm, hc⟩
        have hbf : (s.currentRef == some d.targetRef) = false :=
          beq_eq_false_iff_ne.mpr hne
        simp [hm, hbf]
      · simp [hm]
    simp [plan, h1, hb, h2]
  · intro h1 h2 h3
    simp [plan, h1, h2, h3]
  · intro h1 h2 h3 h4
    simp [plan, h1, h2, h3, h4]

theorem plan_policy_witness :
    plan sampleDesc ⟨false, none, false, true⟩ = .Clone
    ∧ plan sampleDesc ⟨true, some "main", true, true⟩ = .Skip
    ∧ plan sampleDesc ⟨true, some "dev", true, false⟩ = .Conflict "dirty working tree"
    ∧ plan sampleDesc ⟨true, some "dev", false, true⟩ = .Conflict "remote mismatch"
    ∧ plan sampleDesc ⟨true, some "dev", true, true⟩ = .UpdateRef :=
  ⟨(plan_policy sampleDesc ⟨false, none, false, true⟩).1 rfl,
   (plan_policy sampleDesc ⟨true, some "main", true, true⟩).2.1 rfl rfl rfl,
   (plan_policy sampleDesc ⟨true, some "dev", true, false⟩).2.2.1 rfl (by decide) rfl,
   (plan_policy sampleDesc ⟨true, some "dev", false, true⟩).2.2.2.1 rfl rfl rfl,
   (plan_policy sampleDesc ⟨true, some "dev", true, true⟩).2.2.2.2 rfl rfl rfl (by decide)⟩

/-- C3: on a repository that both exists, is dirty and has a mismatched
remote URL, `plan` produces the dirty-working-tree conflict and never the
remote-mismatch conflict. -/
theorem dirty_tree_precedence (d : RepositoryDescriptor) (s : LocalRepositoryState)
    (h1 : s.«exists» = true) (h2 : s.isClean = false)
    (h3 : s.remoteURLMatches = false) :
    plan d s = .Conflict "dirty working tree"
    ∧ plan d s ≠ .Conflict "remote mismatch" := by
  have hp : plan d s = .Conflict "dirty working tree" := by
    simp [plan, h1, h2, h3]
  refine ⟨hp, ?_⟩
  rw [hp]
  decide

/-! ## Executor lemmas -/

theorem outcomeOf_descriptor (o : Nat → Option ErrorKind) (d : RepositoryDescriptor)
    (a : SyncAction) : (outcomeOf o d a).descriptor = d := by
  cases a <;> rfl

theorem outcomeOf_action (o : Nat → Option ErrorKind) (d : RepositoryDescriptor)
    (a : SyncAction) : (outcomeOf o d a).action = a := by
  cases a <;> rfl

theorem executeOne_fst (o : Nat → Option ErrorKind) (fs : Fs)
    (d : RepositoryDescriptor) (a : SyncAction) :
    (executeOne o fs d a).1 = outcomeOf o d a := by
  cases a <;> rfl

theorem executeOne_snd_other (o : Nat → Option ErrorKind) (fs : Fs)
    (d : RepositoryDescriptor) (a : SyncAction) (p : String)
    (hp : p ≠ d.localPath) : (executeOne o fs d a).2 p = fs p := by
  cases a with
  | Clone =>
    simp only [executeOne]
    split
    · simp [updateFs, hp]
    · rfl
  | UpdateRef =>
    simp only [executeOne]
    split
    · simp [updateFs, hp]
    · rfl
  | Skip => rfl
  | Conflict r => rfl

theorem executeAll_fst (oracle : RepositoryDescriptor → Nat → Option ErrorKind)
    (l : List (RepositoryDescriptor × SyncAction)) (fs : Fs) :
    (executeAll oracle l fs).1
      = l.map fun pa => outcomeOf (oracle pa.1) pa.1 pa.2 := by
  induction l generalizing fs with
  | nil => rfl
  | cons pa rest ih =>
    obtain ⟨d, a⟩ := pa
    simp [executeAll, executeOne_fst, ih]

theorem executeAll_snd_untouched (oracle : RepositoryDescriptor → Nat → Option ErrorKind)
    (l : List (RepositoryDescriptor × SyncAction)) (fs : Fs) (p : String)
    (h : ∀ pa ∈ l, pa.1.localPath ≠ p) :
    (executeAll oracle l fs).2 p = fs p := by
  induction l generalizing fs with
  | nil => rfl
  | cons pa rest ih =>
    obtain ⟨d, a⟩ := pa
    have hd : d.localPath ≠ p := h (d, a) (List.mem_cons_self _ _)
    simp only [executeAll]
    rw [ih _ fun pa hpa => h pa (List.mem_cons_of_mem _ hpa)]
    exact executeOne_snd_other _ _ _ _ _ (Ne.symm hd)

theorem executeWithRetry_attempts_le (o : Nat → Option ErrorKind) :
    ∀ (r i : Nat), (executeWithRetry o r i).2 ≤ i + r + 1 := by
  intro r
  induction r with
  | zero =>
    intro i
    rw [executeWithRetry]
    cases ho : o i with
    | none => simp
    | some k => cases k <;> simp
  | succ r ih =>
    intro i
    rw [executeWithRetry]
    cases ho : o i with
    | none => simp
    | some k =>
      cases k with
      | transient =>
        simp only
        calc (executeWithRetry o r (i + 1)).2 ≤ i + 1 + r + 1 := ih (i + 1)
          _ ≤ i + (r + 1) + 1 := by omega
      | permanent => simp

theorem executeWithRetry_all_transient (o : Nat → Option ErrorKind)
    (h : ∀ i, o i = some .transient) :
    ∀ (r i : Nat), executeWithRetry o r i = (.Failed .transient, i + r + 1) := by
  intro r
  induction r with
  | zero =>
    intro i
    rw [executeWithRetry, h i]
  | succ r ih =>
    intro i
    rw [executeWithRetry, h i]
    simp only
    rw [ih (i + 1)]
    congr 1
    omega

theorem executeWithRetry_permanent (o : Nat → Option ErrorKind) (r i : Nat)
    (h : o i = some .permanent) :
    executeWithRetry o r i = (.Failed .permanent, i + 1) := by
  cases r with
  | zero => rw [executeWithRetry, h]
  | succ r => rw [executeWithRetry, h]

/-! ## Claims about the Executor and the pipeline -/

/-- C5: cardinality invariant — the Diff Engine produces exactly one
SyncAction per descriptor (in order), and the Executor produces exactly one
SyncOutcome per descriptor (in order); no descriptor is dropped. -/
theorem outcome_cardinality (oracle : RepositoryDescriptor → Nat → Option ErrorKind)
    (descs : List RepositoryDescriptor) (fs : Fs) :
    (planAll descs fs).length = descs.length
    ∧ (planAll descs fs).map Prod.fst = descs
    ∧ (runPipeline oracle descs fs).1.length = descs.length
    ∧ (runPipeline oracle descs fs).1.map SyncOutcome.descriptor = descs := by
  refine ⟨?_, ?_, ?_, ?_⟩
  · simp [planAll]
  · simp [planAll, List.map_map, Function.comp_def]
  · rw [runPipeline, executeAll_fst]
    simp [planAll]
  · rw [runPipeline, executeAll_fst]
    simp [planAll, List.map_map, Function.comp_def, outcomeOf_descriptor]

/-- C6: retry bound — a Clone or UpdateRef action makes at most
`retryBound + 1` attempts (so at most `retryBound = 3` retries after the
first attempt); when every attempt hits a transient error the outcome is
`Failed transient` after exactly the bound's worth of attempts; a permanent
error on the first attempt gives `Failed permanent` after exactly one
attempt, never retried. -/
theorem retry_policy (o : Nat → Option ErrorKind) (d : RepositoryDescriptor) :
    (∀ a, (a = SyncAction.Clone ∨ a = SyncAction.UpdateRef) →
      (outcomeOf o d a).attempts ≤ retryBound + 1)
    ∧ ((∀ i, o i = some .transient) →
        outcomeOf o d .Clone = ⟨d, .Clone, .Failed .transient, retryBound + 1⟩
        ∧ outcomeOf o d .UpdateRef = ⟨d, .UpdateRef, .Failed .transient, retryBound + 1⟩)
    ∧ (∀ r i, o i = some .permanent →
        executeWithRetry o r i = (.Failed .permanent, i + 1))
    ∧ (o 0 = some .permanent →
        outcomeOf o d .Clone = ⟨d, .Clone, .Failed .permanent, 1⟩
        ∧ outcomeOf o d .UpdateRef = ⟨d, .UpdateRef, .Failed .permanent, 1⟩) := by
  refine ⟨?_, ?_, ?_, ?_⟩
  · rintro a (ha | ha) <;> subst ha <;>
      simpa [outcomeOf] using executeWithRetry_attempts_le o retryBound 0
  · intro h
    constructor <;> simp [outcomeOf, executeWithRetry_all_transient o h]
  · intro r i h
    exact executeWithRetry_permanent o r i h
  · intro h
    constructor <;> simp [outcomeOf, executeWithRetry_permanent o retryBound 0 h]

theorem retry_policy_witness :
    outcomeOf (fun _ => some ErrorKind.transient) sampleDesc .Clone
      = ⟨sampleDesc, .Clone, .Failed .transient, 4⟩
    ∧ outcomeOf (fun _ => some ErrorKind.permanent) sampleDesc .UpdateRef
      = ⟨sampleDesc, .UpdateRef, .Failed .permanent, 1⟩
    ∧ (outcomeOf (fun _ => some ErrorKind.transient) sampleDesc .Clone).attempts ≤ 4
    ∧ executeWithRetry (fun _ => some ErrorKind.permanent) 3 0
        = (.Failed .permanent, 1) :=
  ⟨((retry_policy (fun _ => some ErrorKind.transient) sampleDesc).2.1 fun _ => rfl).1,
   ((retry_policy (fun _ => some ErrorKind.permanent) sampleDesc).2.2.2 rfl).2,
   (retry_policy (fun _ => some ErrorKind.transient) sampleDesc).1 .Clone (Or.inl rfl),
   (retry_policy (fun _ => some ErrorKind.permanent) sampleDesc).2.2.1 3 0 rfl⟩

/-- A second sample descriptor used by witnesses. -/
def sampleDesc2 : RepositoryDescriptor := ⟨"b", "u2", "dev", "/r/b"⟩

/-- C7: failure isolation — when one repository's Clone fails permanently,
its own outcome is `Failed permanent` after one attempt, and every other
repository's outcome is exactly what it is in the run where the failing
repository is absent (each is determined by its own descriptor, action and
attempt stream alone). -/
theorem failure_isolation (oracle : RepositoryDescriptor → Nat → Option ErrorKind)
    (fs fs' : Fs) (l1 l2 : List (RepositoryDescriptor × SyncAction))
    (d0 : RepositoryDescriptor)
    (hperm : oracle d0 0 = some ErrorKind.permanent) :
    (executeAll oracle (l1 ++ (d0, SyncAction.Clone) :: l2) fs).1
      = (l1.map fun pa => outcomeOf (oracle pa.1) pa.1 pa.2)
        ++ ⟨d0, .Clone, .Failed .permanent, 1⟩
          :: (l2.map fun pa => outcomeOf (oracle pa.1) pa.1 pa.2)
    ∧ (executeAll oracle (l1 ++ l2) fs').1
      = (l1.map fun pa => outcomeOf (oracle pa.1) pa.1 pa.2)
        ++ (l2.map fun pa => outcomeOf (oracle pa.1) pa.1 pa.2) := by
  constructor
  · rw [executeAll_fst, List.map_append, List.map_cons]
    congr 1
    congr 1
    simp [outcomeOf, executeWithRetry_permanent (oracle d0) retryBound 0 hperm]
  · rw [executeAll_fst, List.map_append]

theorem failure_isolation_witness :
    (executeAll (fun _ _ => some ErrorKind.permanent)
        ([] ++ (sampleDesc, SyncAction.Clone) :: [(sampleDesc2, SyncAction.Skip)])
        (fun _ => ⟨false, none, false, true⟩)).1
      = [] ++ (⟨sampleDesc, .Clone, .Failed .permanent, 1⟩ : SyncOutcome)
          :: [⟨sampleDesc2, .Skip, .Skipped, 0⟩]
    ∧ (executeAll (fun _ _ => some ErrorKind.permanent)
        ([] ++ [(sampleDesc2, SyncAction.Skip)])
        (fun _ => ⟨false, none, false, true⟩)).1
      = [] ++ [⟨sampleDesc2, .Skip, .Skipped, 0⟩] :=
  failure_isolation (fun _ _ => some ErrorKind.permanent)
    (fun _ => ⟨false, none, false, true⟩) (fun _ => ⟨false, none, false, true⟩)
    [] [(sampleDesc2, SyncAction.Skip)] sampleDesc rfl

/-- C8: the Filesystem Inspector takes the disk only as an input and returns
only a state, so it cannot mutate the filesystem; it reports an
`InspectionError` if and only if the path has an I/O error unrelated to
absence; and a non-existent path is the valid `exists = false` state, not an
error. -/
theorem inspect_contract (d : RepositoryDescriptor) (disk : String → PathStatus) :
    ((∃ e, inspect d disk = .error e) ↔ disk d.localPath = .ioError)
    ∧ (disk d.localPath = .absent → inspect d disk = .ok ⟨false, none, false, true⟩) := by
  constructor
  · constructor
    · rintro ⟨e, he⟩
      cases hd : disk d.localPath <;> simp [inspect, hd] at he ⊢
    · intro hd
      exact ⟨.ioFailure, by simp [inspect, hd]⟩
  · intro hd
    simp [inspect, hd]

theorem inspect_contract_witness :
    inspect sampleDesc (fun _ => PathStatus.ioError) = .error InspectionError.ioFailure
    ∧ inspect sampleDesc (fun _ => PathStatus.absent) = .ok ⟨false, none, false, true⟩ := by
  constructor
  · obtain ⟨e, he⟩ :=
      (inspect_contract sampleDesc (fun _ => PathStatus.ioError)).1.mpr rfl
    cases e
    exact he
  · exact (inspect_contract sampleDesc (fun _ => PathStatus.absent)).2 rfl

theorem dirty_tree_precedence_witness :
    plan sampleDesc ⟨true, some "main", false, false⟩ = .Conflict "dirty working tree"
    ∧ plan sampleDesc ⟨true, some "main", false, false⟩ ≠ .Conflict "remote mismatch" :=
  dirty_tree_precedence sampleDesc ⟨true, some "main", false, false⟩ rfl rfl rfl

/-! ## Idempotence of the pipeline (C4) -/

theorem plan_eq_skip (d : RepositoryDescriptor) (s : LocalRepositoryState)
    (h : plan d s = .Skip) :
    s.«exists» = true ∧ s.remoteURLMatches = true
      ∧ s.currentRef = some d.targetRef := by
  rw [plan] at h
  split_ifs at h with h1 h2 h3 h4
  all_goals simp_all

theorem plan_eq_updateRef (d : RepositoryDescriptor) (s : LocalRepositoryState)
    (h : plan d s = .UpdateRef) :
    s.«exists» = true ∧ s.isClean = true ∧ s.remoteURLMatches = true := by
  rw [plan] at h
  split_ifs at h with h1 h2 h3 h4
  all_goals simp_all

theorem plan_clone_state (d : RepositoryDescriptor) :
    plan d ⟨true, some d.targetRef, true, true⟩ = .Skip := by
  simp [plan]

theorem plan_after_update (d : RepositoryDescriptor) (s : LocalRepositoryState)
    (h : plan d s = .UpdateRef) :
    plan d { s with currentRef := some d.targetRef } = .Skip := by
  obtain ⟨h1, _, h3⟩ := plan_eq_updateRef d s h
  simp [plan, h1, h3]

theorem executeWithRetry_ne_skipped (o : Nat → Option ErrorKind) :
    ∀ (r i : Nat), (executeWithRetry o r i).1 ≠ .Skipped := by
  intro r
  induction r with
  | zero =>
    intro i
    rw [executeWithRetry]
    cases ho : o i with
    | none => simp
    | some k => cases k <;> simp
  | succ r ih =>
    intro i
    rw [executeWithRetry]
    cases ho : o i with
    | none => simp
    | some k =>
      cases k with
      | transient => exact ih (i + 1)
      | permanent => simp

/-- After a successful (non-conflicting) execution of the planned action for
`d`, the state at `d`'s path plans as Skip. -/
theorem executeOne_step (o : Nat → Option ErrorKind) (fs : Fs)
    (d : RepositoryDescriptor) (a : SyncAction)
    (ha : plan d (fs d.localPath) = a)
    (hgood : ∀ r, a ≠ SyncAction.Conflict r)
    (hsucc : (a = .Clone ∨ a = .UpdateRef) →
      (executeWithRetry o retryBound 0).1 = .Success) :
    plan d ((executeOne o fs d a).2 d.localPath) = .Skip := by
  cases a with
  | Clone =>
    have hs : (outcomeOf o d .Clone).status = .Success := hsucc (Or.inl rfl)
    simp only [executeOne]
    rw [if_pos hs]
    simp [updateFs, applyAction, plan_clone_state]
  | UpdateRef =>
    have hs : (outcomeOf o d .UpdateRef).status = .Success := hsucc (Or.inr rfl)
    simp only [executeOne]
    rw [if_pos hs]
    simp only [updateFs, if_pos rfl]
    exact plan_after_update d (fs d.localPath) ha
  | Skip => exact ha
  | Conflict r => exact absurd rfl (hgood r)

theorem runPipeline_aux (oracle : RepositoryDescriptor → Nat → Option ErrorKind)
    (fs0 : Fs) :
    ∀ (descs : List RepositoryDescriptor) (fs : Fs),
    List.Pairwise (fun a b => a.localPath ≠ b.localPath) descs →
    (∀ d ∈ descs, fs d.localPath = fs0 d.localPath) →
    (∀ d ∈ descs, ∀ r, plan d (fs0 d.localPath) ≠ SyncAction.Conflict r) →
    (∀ d ∈ descs,
      (plan d (fs0 d.localPath) = .Clone ∨ plan d (fs0 d.localPath) = .UpdateRef) →
      (executeWithRetry (oracle d) retryBound 0).1 = .Success) →
    ∀ d ∈ descs,
      plan d ((executeAll oracle (planAll descs fs0) fs).2 d.localPath) = .Skip := by
  intro descs
  induction descs with
  | nil =>
    intro fs _ _ _ _ d hd
    cases hd
  | cons d0 rest ih =>
    intro fs hpw hagree hgood hsucc d hd
    rw [List.pairwise_cons] at hpw
    obtain ⟨hd0, hpwrest⟩ := hpw
    have hfs : fs d0.localPath = fs0 d0.localPath :=
      hagree d0 (List.mem_cons_self _ _)
    simp only [planAll, List.map_cons, executeAll]
    rcases List.mem_cons.mp hd with rfl | hdrest
    · have hstep :
          plan d ((executeOne (oracle d) fs d (plan d (fs0 d.localPath))).2 d.localPath)
            = .Skip := by
        apply executeOne_step
        · rw [hfs]
        · exact hgood d (List.mem_cons_self _ _)
        · exact hsucc d (List.mem_cons_self _ _)
      have huntouched : ∀ pa ∈ rest.map (fun d' => (d', plan d' (fs0 d'.localPath))),
          pa.1.localPath ≠ d.localPath := by
        intro pa hpa
        obtain ⟨d', hd', hpe⟩ := List.mem_map.mp hpa
        rw [← hpe]
        exact fun hpath => hd0 d' hd' hpath.symm
      rw [executeAll_snd_untouched _ _ _ _ huntouched]
      exact hstep
    · have hother : (executeOne (oracle d0) fs d0 (plan d0 (fs0 d0.localPath))).2 d.localPath
          = fs d.localPath := by
        apply executeOne_snd_other
        exact fun hpath => hd0 d hdrest hpath.symm
      have hagree' : ∀ d' ∈ rest,
          (executeOne (oracle d0) fs d0 (plan d0 (fs0 d0.localPath))).2 d'.localPath
            = fs0 d'.localPath := by
        intro d' hd'
        rw [executeOne_snd_other _ _ _ _ _ (fun hpath => hd0 d' hd' hpath.symm)]
        exact hagree d' (List.mem_cons_of_mem _ hd')
      exact ih _ hpwrest hagree'
        (fun d' hd' => hgood d' (List.mem_cons_of_mem _ hd'))
        (fun d' hd' => hsucc d' (List.mem_cons_of_mem _ hd')) d hdrest

/-- C4 (amended): if the descriptors' local paths are pairwise distinct and
the first run of the pipeline produces no Failed outcome and no Conflict
action, then with no external state change the second run's plan yields Skip
for every descriptor. -/
theorem pipeline_idempotent (oracle : RepositoryDescriptor → Nat → Option ErrorKind)
    (descs : List RepositoryDescriptor) (fs : Fs)
    (hpaths : List.Pairwise (fun a b => a.localPath ≠ b.localPath) descs)
    (hok : ∀ o ∈ (runPipeline oracle descs fs).1,
      (o.status = SyncStatus.Success ∨ o.status = SyncStatus.Skipped)
      ∧ (o.action = SyncAction.Clone ∨ o.action = SyncAction.UpdateRef
          ∨ o.action = SyncAction.Skip)) :
    ∀ d ∈ descs,
      plan d ((runPipeline oracle descs fs).2 d.localPath) = .Skip := by
  have hout : ∀ d ∈ descs,
      ((outcomeOf (oracle d) d (plan d (fs d.localPath))).status = SyncStatus.Success
        ∨ (outcomeOf (oracle d) d (plan d (fs d.localPath))).status = SyncStatus.Skipped)
      ∧ ((outcomeOf (oracle d) d (plan d (fs d.localPath))).action = SyncAction.Clone
        ∨ (outcomeOf (oracle d) d (plan d (fs d.localPath))).action = SyncAction.UpdateRef
        ∨ (outcomeOf (oracle d) d (plan d (fs d.localPath))).action = SyncAction.Skip) := by
    intro d hd
    apply hok
    rw [runPipeline, executeAll_fst]
    refine List.mem_map.mpr ⟨(d, plan d (fs d.localPath)), ?_, rfl⟩
    exact List.mem_map.mpr ⟨d, hd, rfl⟩
  intro d hd
  rw [runPipeline]
  apply runPipeline_aux oracle fs descs fs hpaths (fun _ _ => rfl) ?_ ?_ d hd
  · intro d' hd' r hc
    rcases (hout d' hd').2 with hk | hk | hk <;>
      rw [outcomeOf_action, hc] at hk <;> exact SyncAction.noConfusion hk
  · intro d' hd' hca
    have h1 := (hout d' hd').1
    rcases hca with hc | hc
    · rw [hc] at h1
      simp only [outcomeOf] at h1
      rcases h1 with h1 | h1
      · exact h1
      · exact absurd h1 (executeWithRetry_ne_skipped _ _ _)
    · rw [hc] at h1
      simp only [outcomeOf] at h1
      rcases h1 with h1 | h1
      · exact h1
      · exact absurd h1 (executeWithRetry_ne_skipped _ _ _)

/-- An attempt oracle under which every attempt succeeds. -/
def noErrOracle : RepositoryDescriptor → Nat → Option ErrorKind := fun _ _ => none

/-- A filesystem on which every path is an existing clone with a dirty
working tree and a mismatched remote. -/
def dirtyFs : Fs := fun _ => ⟨true, some "main", false, false⟩

/-- A filesystem on which every path is absent. -/
def emptyFs : Fs := fun _ => ⟨false, none, false, true⟩

/-- C4 counterexample: on the valid singleton descriptor set `[sampleDesc]`
whose clone exists but is dirty with a mismatched remote, the first pipeline
run produces a Conflict, changes nothing, and the second run's plan is the
same Conflict — not Skip — refuting the claim for arbitrary valid
descriptor sets. -/
theorem pipeline_not_idempotent_cx :
    plan sampleDesc ((runPipeline noErrOracle [sampleDesc] dirtyFs).2 sampleDesc.localPath)
      = .Conflict "dirty working tree"
    ∧ plan sampleDesc ((runPipeline noErrOracle [sampleDesc] dirtyFs).2 sampleDesc.localPath)
      ≠ .Skip := by
  constructor
  · rfl
  · decide

theorem pipeline_idempotent_witness :
    plan sampleDesc ((runPipeline noErrOracle [sampleDesc] emptyFs).2 sampleDesc.localPath)
      = .Skip :=
  pipeline_idempotent noErrOracle [sampleDesc] emptyFs
    (by decide) (by decide) sampleDesc (by decide)

end GHRM
